import Mathlib

/-!
Verification of the MagDronePost post-processing pipeline (postProcess.py).

The script is a single linear pipeline: read a CSV of magnetometry samples,
query the BGS geomagnetic reference service, block-reduce the points with a
median reducer (verde.BlockReduce), fit a biharmonic spline and evaluate it on
a regular grid over the padded data region, mask cells far from the data
(verde.distance_mask), fill NaN cells with the grid median, reduce the grid to
the pole (harmonica.reduction_to_pole), re-mask, flip and write a GeoTIFF
raster (rasterio).

The embedding below models coordinates and field values as rationals and a
possibly-missing (NaN) cell as `Option ℚ`.  Library calls made by the script
(pandas, xarray, numpy, verde, harmonica, rasterio) are modelled from their
documented behaviour; each definition's doc comment names the source line or
library function it embeds.
-/

/-- A row of the input CSV (postProcess.py line 71): projected coordinates
`' X_BD72_m'`, `' Y_BD72_m'` and the field column `' B1Tot'`. -/
structure Row where
  x : ℚ
  y : ℚ
  b : ℚ
deriving DecidableEq

/-- A point with a scalar value, as handled by `verde.BlockReduce.filter`
(coordinates plus the reduced data value). -/
structure P3 where
  x : ℚ
  y : ℚ
  v : ℚ
deriving DecidableEq

/-- Insert a rational into a sorted list, keeping it sorted.  Building block
of the sorting used to model `numpy.median`. -/
def sortedInsert (x : ℚ) : List ℚ → List ℚ
  | [] => [x]
  | y :: ys => if x ≤ y then x :: y :: ys else y :: sortedInsert x ys

/-- Sort a list of rationals (insertion sort). -/
def sortQ (l : List ℚ) : List ℚ := l.foldr sortedInsert []

/-- Model of `numpy.median`: sort the values; for an odd count take the middle
element, for an even count take the average of the two middle elements. -/
def median (l : List ℚ) : ℚ :=
  if l.length % 2 = 1 then (sortQ l).getD (l.length / 2) 0
  else ((sortQ l).getD (l.length / 2 - 1) 0 + (sortQ l).getD (l.length / 2) 0) / 2

/-- Smallest x coordinate of a point set (used for the bin origin of the
block-reduction, which verde derives from the data region). -/
def minCoordX (pts : List P3) : ℚ :=
  match pts with
  | [] => 0
  | p :: ps => ps.foldl (fun m q => min m q.x) p.x

/-- Smallest y coordinate of a point set. -/
def minCoordY (pts : List P3) : ℚ :=
  match pts with
  | [] => 0
  | p :: ps => ps.foldl (fun m q => min m q.y) p.y

/-- Spatial bin index of a point for a given block spacing, relative to the
lower-left corner of the data region (model of `verde.block_split`). -/
def binOf (spacing w s : ℚ) (p : P3) : ℤ × ℤ :=
  (⌊(p.x - w) / spacing⌋, ⌊(p.y - s) / spacing⌋)

/-- The list of occupied bins, in order of first appearance, without
duplicates. -/
def occupiedBins (spacing : ℚ) (pts : List P3) : List (ℤ × ℤ) :=
  (pts.map (binOf spacing (minCoordX pts) (minCoordY pts))).dedup

/-- The points of `pts` falling in bin `b`. -/
def binMembers (spacing : ℚ) (pts : List P3) (b : ℤ × ℤ) : List P3 :=
  pts.filter (fun p => decide (binOf spacing (minCoordX pts) (minCoordY pts) p = b))

/-- Model of `vd.BlockReduce(reduction=np.median, spacing=...).filter` applied
at postProcess.py line 98: one output point per occupied spatial bin; the
output coordinates and the output value are the medians of the member
coordinates and values (verde applies the reduction to the coordinates as
well by default). -/
def BlockReduce_median (spacing : ℚ) (pts : List P3) : List P3 :=
  (occupiedBins spacing pts).map (fun b =>
    let m := binMembers spacing pts b
    ⟨median (m.map P3.x), median (m.map P3.y), median (m.map P3.v)⟩)

/-- Model of `vd.get_region` on a list of coordinates: the tuple
(west, east, south, north) of coordinate extremes, in verde's region order. -/
def get_region (pts : List (ℚ × ℚ)) : ℚ × ℚ × ℚ × ℚ :=
  match pts with
  | [] => (0, 0, 0, 0)
  | p :: ps =>
    (ps.foldl (fun m q => min m q.1) p.1,
     ps.foldl (fun m q => max m q.1) p.1,
     ps.foldl (fun m q => min m q.2) p.2,
     ps.foldl (fun m q => max m q.2) p.2)

/-- Model of `vd.pad_region(region, pad)` (postProcess.py line 128): grow the
region by `pad` on every side. -/
def pad_region (r : ℚ × ℚ × ℚ × ℚ) (pad : ℚ) : ℚ × ℚ × ℚ × ℚ :=
  (r.1 - pad, r.2.1 + pad, r.2.2.1 - pad, r.2.2.2 + pad)

/-- A regular grid: the west and south coordinates of the first cell plus the
cell values, rows indexed by northing (ascending from south), columns by
easting (ascending from west), spacing 1 as at postProcess.py line 132.
`none` models a NaN cell. -/
structure Grid where
  west : ℚ
  south : ℚ
  vals : List (List (Option ℚ))
deriving DecidableEq

/-- Geographic coordinate (easting, northing) of cell (i, j) of a grid. -/
def cellCoord (g : Grid) (i j : ℕ) : ℚ × ℚ := (g.west + (j : ℚ), g.south + (i : ℚ))

/-- Cell (i, j) of a grid: `none` when the index is out of range, otherwise
`some` of the stored (possibly NaN) value. -/
def cellOpt (g : Grid) (i j : ℕ) : Option (Option ℚ) :=
  g.vals[i]?.bind (fun r => r[j]?)

/-- The value of cell (i, j): `none` both for a NaN cell and out of range. -/
def cellVal (g : Grid) (i j : ℕ) : Option ℚ := (cellOpt g i j).join

/-- Model of `spline.grid(region=..., spacing=1, ...)` (postProcess.py lines
130-135): evaluate a field function `f` (the fitted biharmonic spline, kept
abstract since no claim depends on the spline numerics) on every node of the
regular grid covering the region.  The node counts follow verde's
region-covering rule for spacing 1. -/
def makeGrid (region : ℚ × ℚ × ℚ × ℚ) (f : ℚ → ℚ → Option ℚ) : Grid :=
  { west := region.1
    south := region.2.2.1
    vals :=
      (List.range ((region.2.2.2 - region.2.2.1).ceil.toNat + 1)).map (fun (i : ℕ) =>
        (List.range ((region.2.1 - region.1).ceil.toNat + 1)).map (fun (j : ℕ) =>
          f (region.1 + (j : ℚ)) (region.2.2.1 + (i : ℚ)))) }

/-- Map over a list with the element index, starting at `k`. -/
def idxMap {α β : Type} (f : ℕ → α → β) : ℕ → List α → List β
  | _, [] => []
  | i, a :: as => f i a :: idxMap f (i + 1) as

/-- Whether a grid node is within `maxdist` (Euclidean distance) of at least
one data point, compared on squared distances. -/
def withinDist (pts : List (ℚ × ℚ)) (maxdist : ℚ) (c : ℚ × ℚ) : Bool :=
  pts.any (fun p => decide ((p.1 - c.1) ^ 2 + (p.2 - c.2) ^ 2 ≤ maxdist ^ 2))

/-- Model of `vd.distance_mask(coordinates, maxdist, grid)` (postProcess.py
lines 137-138 and 159-160): set every cell farther than `maxdist` from every
data point to NaN; keep the others. -/
def distance_mask (pts : List (ℚ × ℚ)) (maxdist : ℚ) (g : Grid) : Grid :=
  { g with
    vals := idxMap (fun i row =>
      idxMap (fun j v => if withinDist pts maxdist (cellCoord g i j) then v else none) 0 row) 0 g.vals }

/-- Whether the grid has at least one NaN cell (model of elementwise
`isnull` followed by reduction). -/
def hasNaN (g : Grid) : Bool := g.vals.any (fun row => row.any Option.isNone)

/-- The defined (non-NaN) values of a grid. -/
def definedVals (g : Grid) : List ℚ := g.vals.flatten.filterMap id

/-- Model of `np.nanmedian` over a grid: the median of the defined values;
on an all-NaN grid numpy returns NaN (with a RuntimeWarning, not an error),
modelled as `none`. -/
def nanmedianGrid (g : Grid) : Option ℚ :=
  if definedVals g = [] then none else some (median (definedVals g))

/-- Model of `DataArray.fillna(value)` (postProcess.py line 154): replace
every NaN cell by `value`; since xarray fills with `where(notnull, value)`,
filling with NaN (`value = none`) leaves the grid unchanged. -/
def fillna (g : Grid) (v : Option ℚ) : Grid :=
  { g with
    vals := g.vals.map (List.map (fun o => match o with
      | none => v
      | some x => some x)) }

/-- Model of an xarray `Dataset`: named data variables over the grid
coordinates.  `grid_full` holds the single variable `total_field_anomaly`. -/
structure Dataset where
  vars : List (String × Grid)
deriving DecidableEq

/-- The dataset produced by `spline.grid` at line 130: one data variable named
`total_field_anomaly`. -/
def mkDataset (g : Grid) : Dataset := ⟨[("total_field_anomaly", g)]⟩

/-- Model of `Dataset.isnull().any()`: one scalar boolean per data variable;
the number of data variables is preserved. -/
def dataset_isnull_any (d : Dataset) : List (String × Bool) :=
  d.vars.map (fun nv => (nv.1, hasNaN nv.2))

/-- Model of xarray `Dataset.__bool__`, which Python calls to evaluate the
`if` at postProcess.py line 152: it is `bool(self.data_vars)`, i.e. true
exactly when the dataset has at least one data variable -- independent of the
boolean values the variables hold. -/
def dataset_truthy (vs : List (String × Bool)) : Bool := decide (vs ≠ [])

/-- The value bound to `filled` at postProcess.py lines 152-156: either the
single `total_field_anomaly` data array (then-branch, line 154) or a copy of
the whole dataset (else-branch, line 156). -/
inductive RtpInput where
  | dataArray (g : Grid)
  | dataset (d : Dataset)
deriving DecidableEq

/-- The branch at postProcess.py lines 152-156: the condition is the
truthiness of the dataset `grid_full.isnull().any()`; the then-branch fills
the NaN cells of the anomaly array with `np.nanmedian` of the array, the
else-branch copies the dataset. -/
def nanBranch (g : Grid) : RtpInput :=
  if dataset_truthy (dataset_isnull_any (mkDataset g)) then
    RtpInput.dataArray (fillna g (nanmedianGrid g))
  else
    RtpInput.dataset (mkDataset g)

/-- The grid actually handed to `hc.reduction_to_pole` at line 158.  The
dataset case never occurs (the condition at line 152 is always truthy); its
arm extracts the variable so the definition is total. -/
def branchGrid (g : Grid) : Grid :=
  match nanBranch g with
  | RtpInput.dataArray a => a
  | RtpInput.dataset d => (d.vars.headD ("", g)).2

/-- The failure modes of the run: uncaught Python exceptions from
`pd.read_csv` (missing file, malformed CSV), from the
`MagneticFieldCalculator.calculate` web call, and the
`ValueError("Found nan(s) on the passed grid. ...")` that harmonica's
`apply_filter` raises when the grid handed to the FFT still has NaN cells. -/
inductive PipeError where
  | fileNotFound
  | networkFailure
  | malformedCsv
  | nanGridFound
deriving DecidableEq

/-- Strip the NaN layer off a NaN-free grid's values: the plain float array
handed to the FFT (NaN cells, which never reach this point, would read 0). -/
def stripVals (m : List (List (Option ℚ))) : List (List ℚ) :=
  m.map (fun row => row.map (fun o => o.getD 0))

/-- Re-wrap the filter's numeric output as grid cells. -/
def wrapVals (m : List (List ℚ)) : List (List (Option ℚ)) :=
  m.map (fun row => row.map (fun x => (some x : Option ℚ)))

/-- The result of the pole-reduction FFT filter on a NaN-free grid: shape and
coordinates preserved, the numeric core kept abstract as `tf` since no claim
depends on the filter numerics. -/
def rtpOut (tf : List (List ℚ) → List (List ℚ)) (g : Grid) : Grid :=
  { g with vals := wrapVals (tf (stripVals g.vals)) }

/-- Model of `hc.reduction_to_pole(filled, inclination, declination)`
(postProcess.py line 158).  Harmonica's `apply_filter` first validates the
grid and raises `ValueError("Found nan(s) on the passed grid. The grid must
not have missing values before computing the Fast Fourier Transform.")` when
any cell is NaN -- modelled as the error outcome, which the script does not
catch; on a NaN-free grid the FFT filter runs, preserving the grid's shape
and coordinates. -/
def reduction_to_pole (tf : List (List ℚ) → List (List ℚ)) (g : Grid) :
    Except PipeError Grid :=
  if hasNaN g then Except.error PipeError.nanGridFound
  else Except.ok (rtpOut tf g)

/-- The masking applied to the interpolated grid at postProcess.py lines
137-138. -/
def interpMasked (pts : List (ℚ × ℚ)) (g : Grid) : Grid := distance_mask pts 20 g

/-- Lines 152-160 as one stage: fill the NaN cells (the branch at lines
152-156), reduce the result to the pole (line 158, which raises on a grid
that still holds NaNs), and re-mask a successful result by the same distance
criterion (lines 159-160). -/
def reducedMasked (tf : List (List ℚ) → List (List ℚ)) (pts : List (ℚ × ℚ)) (g : Grid) :
    Except PipeError Grid :=
  (reduction_to_pole tf (branchGrid g)).map (distance_mask pts 20)

/-- A shape-preserving grid transform: the row-length profile of the output
equals that of the input (true of the FFT filter chain in harmonica). -/
def ShapePres (tf : List (List ℚ) → List (List ℚ)) : Prop :=
  ∀ m : List (List ℚ), (tf m).map List.length = m.map List.length

/-- The affine georeferencing transform of the raster:
(x, y) = (a*col + b*row + c, d*col + e*row + f). -/
structure Affine where
  a : ℚ
  b : ℚ
  c : ℚ
  d : ℚ
  e : ℚ
  f : ℚ
deriving DecidableEq

/-- Model of `rasterio.transform.from_bounds(west, south, east, north, width,
height)` (postProcess.py line 200): pixel size from the bounds and pixel
counts, origin at the top-left (west, north) corner. -/
def from_bounds (west south east north : ℚ) (width height : ℕ) : Affine :=
  { a := (east - west) / (width : ℚ)
    b := 0
    c := west
    d := 0
    e := -((north - south) / (height : ℚ))
    f := north }

/-- Apply an affine transform to a (column, row) pixel index. -/
def applyAffine (t : Affine) (col row : ℚ) : ℚ × ℚ :=
  (t.a * col + t.b * row + t.c, t.d * col + t.e * row + t.f)

/-- Model of `np.flipud` on the squeezed 2-D array (postProcess.py line 190):
reverse the row order. -/
def flipud (m : List (List (Option ℚ))) : List (List (Option ℚ)) := m.reverse

/-- The written raster (postProcess.py lines 192-202): declared height and
width, the affine transform, and the single band of data. -/
structure Raster where
  height : ℕ
  width : ℕ
  transform : Affine
  data : List (List (Option ℚ))
deriving DecidableEq

/-- The fields of the geomagnetic service response used at postProcess.py
lines 82-84: inclination, declination and total intensity. -/
structure GeoParams where
  inclination : ℚ
  declination : ℚ
  totalIntensity : ℚ
deriving DecidableEq

/-- The run environment: the outcome of the two fallible external calls
(CSV read at line 71, service call at lines 75-80), the fitted spline as a
field evaluation function (lines 115-135), and the numeric core of the
reduction-to-pole FFT filter, parameterized by inclination and
declination (line 158). -/
structure RunEnv where
  csv : Except PipeError (List Row)
  service : Except PipeError GeoParams
  splineEval : ℚ → ℚ → Option ℚ
  rtpCore : ℚ → ℚ → List (List ℚ) → List (List ℚ)

/-- The anomaly points fed to the block reducer at postProcess.py line 98:
each sample's coordinates with the field column minus the hard-coded
baseline 48925. -/
def anomalyPoints (rows : List Row) : List P3 :=
  rows.map (fun r => ⟨r.x, r.y, r.b - 48925⟩)

/-- The decimated point set (line 98): block reduction with spacing 5. -/
def decimated (rows : List Row) : List P3 :=
  BlockReduce_median 5 (anomalyPoints rows)

/-- The decimated coordinates `(east, north)` (line 100), used for the region
and for both distance masks. -/
def decimatedCoords (rows : List Row) : List (ℚ × ℚ) :=
  (decimated rows).map (fun p => (p.x, p.y))

/-- The padded region of line 128: `vd.pad_region(vd.get_region(coordinates), 50)`. -/
def pipelineRegion (rows : List Row) : ℚ × ℚ × ℚ × ℚ :=
  pad_region (get_region (decimatedCoords rows)) 50

/-- The interpolated full grid of lines 130-135. -/
def gridFull (rows : List Row) (f : ℚ → ℚ → Option ℚ) : Grid :=
  makeGrid (pipelineRegion rows) f

/-- The distance-masked interpolated grid of lines 137-138. -/
def gridMasked (rows : List Row) (f : ℚ → ℚ → Option ℚ) : Grid :=
  distance_mask (decimatedCoords rows) 20 (gridFull rows f)

/-- The pole-reduction outcome of line 158, applied to the branch value of
lines 152-156: an uncaught ValueError when the filled grid still holds NaNs,
the transformed grid otherwise. -/
def rtpGrid (rows : List Row) (p : GeoParams) (f : ℚ → ℚ → Option ℚ)
    (tf : ℚ → ℚ → List (List ℚ) → List (List ℚ)) : Except PipeError Grid :=
  reduction_to_pole (tf p.inclination p.declination) (branchGrid (gridFull rows f))

/-- The written raster of lines 182-202, for the re-masked reduced grid `gr`
of a successful run: the grid flipped up-down, with the declared height and
width taken from the flipped array's shape and the transform from
`from_bounds(region[0], region[2], region[1], region[3], shape[1], shape[0])`
exactly as at line 200. -/
def outRasterOf (rows : List Row) (gr : Grid) : Raster :=
  let region := pipelineRegion rows
  let reducedMag := flipud gr.vals
  { height := reducedMag.length
    width := (reducedMag.headD []).length
    transform := from_bounds region.1 region.2.2.1 region.2.1 region.2.2.2
      (reducedMag.headD []).length reducedMag.length
    data := reducedMag }

/-- Observable events of a run, in program order. -/
inductive Event where
  | csvRead
  | serviceCall
  | blockReduced
  | gridded
  | poleReduced
  | rasterWrite
deriving DecidableEq

/-- The whole run of postProcess.py: the CSV read and the service call are
fallible external stages, and the pole reduction raises an uncaught
ValueError when the grid it receives still contains NaNs; an exception in
any of them halts the straight-line script (no handlers).  Returns the
completed events and the outcome. -/
def runPipeline (env : RunEnv) : List Event × Except PipeError Raster :=
  match env.csv with
  | Except.error e => ([], Except.error e)
  | Except.ok rows =>
    match env.service with
    | Except.error e => ([Event.csvRead], Except.error e)
    | Except.ok p =>
      match reducedMasked (env.rtpCore p.inclination p.declination)
          (decimatedCoords rows) (gridFull rows env.splineEval) with
      | Except.error e =>
        ([Event.csvRead, Event.serviceCall, Event.blockReduced, Event.gridded],
         Except.error e)
      | Except.ok gr =>
        ([Event.csvRead, Event.serviceCall, Event.blockReduced, Event.gridded,
          Event.poleReduced, Event.rasterWrite],
         Except.ok (outRasterOf rows gr))

/-- Whether every cell of a 2-D array is NaN. -/
def allNoneVals (m : List (List (Option ℚ))) : Bool :=
  m.all (fun row => row.all Option.isNone)

/-- Whether the interpolated full grid of the run is entirely NaN. -/
def gridFullAllNaN (env : RunEnv) : Bool :=
  match env.csv with
  | Except.ok rows => allNoneVals (gridFull rows env.splineEval).vals
  | Except.error _ => false


/-! ### Helper lemmas about the list and grid operations -/

theorem idxMap_get {α β : Type} (f : ℕ → α → β) :
    ∀ (l : List α) (k n : ℕ), (idxMap f k l)[n]? = (l[n]?).map (f (k + n)) := by
  intro l
  induction l with
  | nil => intro k n; simp [idxMap]
  | cons a as ih =>
    intro k n
    cases n with
    | zero => simp [idxMap]
    | succ m =>
      simp only [idxMap, List.getElem?_cons_succ]
      rw [ih (k + 1) m, show k + 1 + m = k + (m + 1) by omega]

theorem idxMap_length {α β : Type} (f : ℕ → α → β) :
    ∀ (l : List α) (k : ℕ), (idxMap f k l).length = l.length := by
  intro l
  induction l with
  | nil => intro k; rfl
  | cons a as ih => intro k; simp [idxMap, ih]

theorem idxMap_mem {α β : Type} (f : ℕ → α → β) :
    ∀ (l : List α) (k : ℕ) (b : β), b ∈ idxMap f k l → ∃ n a, a ∈ l ∧ b = f n a := by
  intro l
  induction l with
  | nil => intro k b h; simp [idxMap] at h
  | cons a as ih =>
    intro k b h
    simp only [idxMap, List.mem_cons] at h
    rcases h with h | h
    · exact ⟨k, a, List.mem_cons_self a as, h⟩
    · obtain ⟨n, c, hc, hb⟩ := ih (k + 1) b h
      exact ⟨n, c, List.mem_cons_of_mem a hc, hb⟩

theorem cellOpt_distance_mask (pts : List (ℚ × ℚ)) (d : ℚ) (g : Grid) (i j : ℕ) :
    cellOpt (distance_mask pts d g) i j
      = (cellOpt g i j).map (fun v => if withinDist pts d (cellCoord g i j) then v else none) := by
  unfold cellOpt distance_mask
  simp only [idxMap_get, Nat.zero_add]
  cases h : g.vals[i]? with
  | none => rfl
  | some row =>
    simp only [Option.map_some', Option.some_bind]
    rw [idxMap_get]
    cases hr : row[j]? with
    | none => rfl
    | some v => simp [Nat.zero_add]

theorem cellVal_distance_mask (pts : List (ℚ × ℚ)) (d : ℚ) (g : Grid) (i j : ℕ) :
    cellVal (distance_mask pts d g) i j
      = if withinDist pts d (cellCoord g i j) then cellVal g i j else none := by
  unfold cellVal
  rw [cellOpt_distance_mask]
  cases h : cellOpt g i j with
  | none => cases hw : withinDist pts d (cellCoord g i j) <;> rfl
  | some v =>
    cases hw : withinDist pts d (cellCoord g i j) <;> simp [hw, Option.join]

theorem masked_none_iff (pts : List (ℚ × ℚ)) (d : ℚ) (g : Grid) (i j : ℕ) :
    cellVal (distance_mask pts d g) i j = none
      ↔ (withinDist pts d (cellCoord g i j) = false ∨ cellVal g i j = none) := by
  rw [cellVal_distance_mask]
  cases hw : withinDist pts d (cellCoord g i j) <;> simp

theorem cellOpt_fillna (g : Grid) (v : Option ℚ) (i j : ℕ) :
    cellOpt (fillna g v) i j
      = (cellOpt g i j).map (fun o => match o with | none => v | some x => some x) := by
  unfold cellOpt fillna
  simp only [List.getElem?_map]
  cases h : g.vals[i]? with
  | none => rfl
  | some row =>
    simp only [Option.map_some', Option.some_bind, List.getElem?_map]

theorem hasNaN_false_no_none (g : Grid) (h : hasNaN g = false) :
    ∀ row ∈ g.vals, ∀ o ∈ row, o ≠ none := by
  intro row hrow o ho hnone
  subst hnone
  have : hasNaN g = true := by
    unfold hasNaN
    exact List.any_eq_true.mpr ⟨row, hrow, List.any_eq_true.mpr ⟨none, ho, rfl⟩⟩
  rw [h] at this
  exact Bool.false_ne_true this

theorem hasNaN_false_cells (g : Grid) (h : hasNaN g = false) :
    ∀ i j o, cellOpt g i j = some o → ∃ x, o = some x := by
  intro i j o hc
  unfold cellOpt at hc
  cases hrow : g.vals[i]? with
  | none => rw [hrow] at hc; simp at hc
  | some row =>
    rw [hrow] at hc
    simp only [Option.some_bind] at hc
    have hne := hasNaN_false_no_none g h row (List.getElem?_mem hrow) o (List.getElem?_mem hc)
    cases o with
    | none => exact absurd rfl hne
    | some x => exact ⟨x, rfl⟩

theorem fillna_of_not_hasNaN (g : Grid) (v : Option ℚ) (h : hasNaN g = false) :
    fillna g v = g := by
  have hne := hasNaN_false_no_none g h
  unfold fillna
  cases g with
  | mk w s vals =>
    simp only [Grid.mk.injEq, true_and]
    have hrows : ∀ row ∈ vals, row.map (fun o => match o with | none => v | some x => some x) = row := by
      intro row hrow
      have hcell : ∀ o ∈ row, (fun o => match o with | none => v | some x => some x) o = id o := by
        intro o ho
        cases o with
        | none => exact absurd rfl (hne row hrow none ho)
        | some x => rfl
      rw [List.map_congr_left hcell, List.map_id]
    have hall : ∀ row ∈ vals,
        (fun r => r.map (fun o => match o with | none => v | some x => some x)) row = id row := by
      intro row hrow
      simpa using hrows row hrow
    rw [List.map_congr_left hall, List.map_id]

theorem nanBranch_eq (g : Grid) :
    nanBranch g = RtpInput.dataArray (fillna g (nanmedianGrid g)) := by
  unfold nanBranch
  rw [if_pos]
  unfold dataset_truthy dataset_isnull_any mkDataset
  simp

theorem branchGrid_eq (g : Grid) : branchGrid g = fillna g (nanmedianGrid g) := by
  unfold branchGrid
  rw [nanBranch_eq]

theorem branchGrid_of_not_hasNaN (g : Grid) (h : hasNaN g = false) : branchGrid g = g := by
  rw [branchGrid_eq]
  exact fillna_of_not_hasNaN g _ h

theorem branchGrid_west (g : Grid) : (branchGrid g).west = g.west := by
  rw [branchGrid_eq]; rfl

theorem branchGrid_south (g : Grid) : (branchGrid g).south = g.south := by
  rw [branchGrid_eq]; rfl

theorem rtpOut_west (tf : List (List ℚ) → List (List ℚ)) (g : Grid) :
    (rtpOut tf g).west = g.west := rfl

theorem rtpOut_south (tf : List (List ℚ) → List (List ℚ)) (g : Grid) :
    (rtpOut tf g).south = g.south := rfl

theorem cellCoord_of_eq (g h : Grid) (hw : h.west = g.west) (hs : h.south = g.south) :
    ∀ i j, cellCoord h i j = cellCoord g i j := by
  intro i j
  unfold cellCoord
  rw [hw, hs]

theorem shape_cell_isSome {α β : Type} (l1 : List (List α)) (l2 : List (List β))
    (h : l1.map List.length = l2.map List.length) (i j : ℕ) :
    (l1[i]?.bind (fun r => r[j]?)).isSome = (l2[i]?.bind (fun r => r[j]?)).isSome := by
  have hlen : l1.length = l2.length := by
    have := congrArg List.length h
    simpa using this
  cases h1 : l1[i]? with
  | none =>
    rw [List.getElem?_eq_none_iff] at h1
    have h2 : l2[i]? = none := List.getElem?_eq_none (by omega)
    rw [h2]
    rfl
  | some r1 =>
    have hi : i < l1.length := by
      by_contra hlt
      rw [List.getElem?_eq_none (by omega)] at h1
      exact Option.noConfusion h1
    cases h2 : l2[i]? with
    | none =>
      rw [List.getElem?_eq_none_iff] at h2
      omega
    | some r2 =>
      have hr : r1.length = r2.length := by
        have e1 : (l1.map List.length)[i]? = some r1.length := by
          rw [List.getElem?_map, h1]; rfl
        have e2 : (l2.map List.length)[i]? = some r2.length := by
          rw [List.getElem?_map, h2]; rfl
        rw [h] at e1
        rw [e1] at e2
        exact Option.some_inj.mp e2
      simp only [Option.some_bind]
      cases hj : r1[j]? with
      | none =>
        rw [List.getElem?_eq_none_iff] at hj
        rw [List.getElem?_eq_none (show r2.length ≤ j by omega)]
        rfl
      | some v =>
        have hjlt : j < r1.length := by
          by_contra hlt
          rw [List.getElem?_eq_none (by omega)] at hj
          exact Option.noConfusion hj
        cases hj2 : r2[j]? with
        | none =>
          rw [List.getElem?_eq_none_iff] at hj2
          omega
        | some w => rfl

theorem map_map_length {α β : Type} (f : α → β) (m : List (List α)) :
    (m.map (List.map f)).map List.length = m.map List.length := by
  rw [List.map_map]
  apply List.map_congr_left
  intro r _
  simp

theorem rtpOut_shape (tf : List (List ℚ) → List (List ℚ)) (g : Grid) (htf : ShapePres tf) :
    (rtpOut tf g).vals.map List.length = g.vals.map List.length := by
  unfold rtpOut wrapVals stripVals
  simp only
  rw [map_map_length, htf, map_map_length]

theorem cellVal_none_iff (g : Grid) (i j : ℕ) :
    cellVal g i j = none ↔ (cellOpt g i j = none ∨ cellOpt g i j = some none) := by
  unfold cellVal
  cases h : cellOpt g i j with
  | none => simp
  | some o => cases o <;> simp

theorem rtpOut_cell_defined (tf : List (List ℚ) → List (List ℚ)) (g : Grid)
    (i j : ℕ) (o : Option ℚ)
    (hc : cellOpt (rtpOut tf g) i j = some o) : o.isSome := by
  unfold rtpOut wrapVals stripVals at hc
  unfold cellOpt at hc
  simp only [List.getElem?_map] at hc
  cases h1 : (tf (g.vals.map (fun row => row.map (fun o => o.getD 0))))[i]? with
  | none => rw [h1] at hc; simp at hc
  | some r =>
    rw [h1] at hc
    simp only [Option.map_some', Option.some_bind, List.getElem?_map] at hc
    cases h2 : r[j]? with
    | none => rw [h2] at hc; simp at hc
    | some v =>
      rw [h2] at hc
      simp only [Option.map_some', Option.some.injEq] at hc
      rw [← hc]
      rfl

theorem rtpOut_cellVal_none_iff (tf : List (List ℚ) → List (List ℚ)) (g : Grid)
    (htf : ShapePres tf) (h : hasNaN g = false) (i j : ℕ) :
    (cellVal (rtpOut tf g) i j = none ↔ cellVal g i j = none) := by
  rw [cellVal_none_iff, cellVal_none_iff]
  have hshape : (cellOpt (rtpOut tf g) i j).isSome = (cellOpt g i j).isSome := by
    unfold cellOpt
    exact shape_cell_isSome _ _ (rtpOut_shape tf g htf) i j
  constructor
  · intro hcase
    rcases hcase with hnone | hsome
    · left
      cases hg : cellOpt g i j with
      | none => rfl
      | some o =>
        rw [hnone, hg] at hshape
        simp at hshape
    · exact absurd (rtpOut_cell_defined tf g i j none hsome) (by simp)
  · intro hcase
    rcases hcase with hnone | hsome
    · left
      cases hr : cellOpt (rtpOut tf g) i j with
      | none => rfl
      | some o =>
        rw [hnone, hr] at hshape
        simp at hshape
    · obtain ⟨x, hx⟩ := hasNaN_false_cells g h i j none hsome
      exact Option.noConfusion hx

theorem allNone_iff (m : List (List (Option ℚ))) :
    allNoneVals m = true ↔ ∀ row ∈ m, ∀ o ∈ row, o = none := by
  unfold allNoneVals
  rw [List.all_eq_true]
  constructor
  · intro h row hrow o ho
    have := h row hrow
    rw [List.all_eq_true] at this
    have ho2 := this o ho
    cases o with
    | none => rfl
    | some x => simp at ho2
  · intro h row hrow
    rw [List.all_eq_true]
    intro o ho
    rw [h row hrow o ho]
    rfl

theorem makeGrid_allNone (r : ℚ × ℚ × ℚ × ℚ) (f : ℚ → ℚ → Option ℚ)
    (hf : ∀ x y, f x y = none) : allNoneVals (makeGrid r f).vals = true := by
  rw [allNone_iff]
  intro row hrow o ho
  unfold makeGrid at hrow
  simp only [List.mem_map] at hrow
  obtain ⟨i, _, hrow⟩ := hrow
  rw [← hrow] at ho
  simp only [List.mem_map] at ho
  obtain ⟨j, _, ho⟩ := ho
  rw [← ho, hf]

theorem definedVals_nil (g : Grid) (h : allNoneVals g.vals = true) : definedVals g = [] := by
  unfold definedVals
  rw [List.filterMap_eq_nil_iff]
  intro a ha
  rw [List.mem_flatten] at ha
  obtain ⟨row, hrow, ha⟩ := ha
  exact (allNone_iff g.vals).mp h row hrow a ha

theorem nanmedian_of_allNone (g : Grid) (h : allNoneVals g.vals = true) :
    nanmedianGrid g = none := by
  unfold nanmedianGrid
  rw [if_pos (definedVals_nil g h)]

theorem fillna_allNone (g : Grid) (v : Option ℚ) (h : allNoneVals g.vals = true)
    (hv : v = none) : allNoneVals (fillna g v).vals = true := by
  rw [allNone_iff]
  intro row hrow o ho
  unfold fillna at hrow
  simp only [List.mem_map] at hrow
  obtain ⟨row0, hrow0, hrow⟩ := hrow
  rw [← hrow] at ho
  simp only [List.mem_map] at ho
  obtain ⟨o0, ho0, ho⟩ := ho
  have := (allNone_iff g.vals).mp h row0 hrow0 o0 ho0
  rw [← ho, this, hv]

theorem hasNaN_of_allNone (g : Grid) (h : allNoneVals g.vals = true)
    (hlen : 0 < g.vals.length) (hrows : ∀ row ∈ g.vals, 0 < row.length) :
    hasNaN g = true := by
  unfold hasNaN
  rw [List.any_eq_true]
  obtain ⟨row, hrow⟩ := List.exists_mem_of_length_pos hlen
  obtain ⟨o, ho⟩ := List.exists_mem_of_length_pos (hrows row hrow)
  refine ⟨row, hrow, ?_⟩
  rw [List.any_eq_true]
  refine ⟨o, ho, ?_⟩
  rw [(allNone_iff g.vals).mp h row hrow o ho]
  rfl

theorem rtp_error_of_hasNaN (tf : List (List ℚ) → List (List ℚ)) (g : Grid)
    (h : hasNaN g = true) :
    reduction_to_pole tf g = Except.error PipeError.nanGridFound := by
  unfold reduction_to_pole
  rw [if_pos (by simp [h])]

theorem rtp_ok_of_not_hasNaN (tf : List (List ℚ) → List (List ℚ)) (g : Grid)
    (h : hasNaN g = false) :
    reduction_to_pole tf g = Except.ok (rtpOut tf g) := by
  unfold reduction_to_pole
  rw [if_neg (by simp [h])]

theorem hasNaN_makeGrid_of_total (r : ℚ × ℚ × ℚ × ℚ) (f : ℚ → ℚ → Option ℚ)
    (hf : ∀ x y, f x y ≠ none) : hasNaN (makeGrid r f) = false := by
  unfold hasNaN
  rw [List.any_eq_false]
  intro row hrow hcon
  rw [List.any_eq_true] at hcon
  obtain ⟨o, ho, hiso⟩ := hcon
  unfold makeGrid at hrow
  simp only [List.mem_map] at hrow
  obtain ⟨i, _, hrow⟩ := hrow
  rw [← hrow] at ho
  simp only [List.mem_map] at ho
  obtain ⟨j, _, ho⟩ := ho
  rw [← ho] at hiso
  rw [Option.isNone_iff_eq_none] at hiso
  exact hf _ _ hiso

theorem reducedMasked_ok (tf : List (List ℚ) → List (List ℚ)) (pts : List (ℚ × ℚ))
    (g : Grid) (gr : Grid) (hrm : reducedMasked tf pts g = Except.ok gr) :
    hasNaN (branchGrid g) = false
    ∧ gr = distance_mask pts 20 (rtpOut tf (branchGrid g)) := by
  unfold reducedMasked at hrm
  cases hnan : hasNaN (branchGrid g) with
  | true =>
    rw [rtp_error_of_hasNaN _ _ hnan] at hrm
    simp [Except.map] at hrm
  | false =>
    rw [rtp_ok_of_not_hasNaN _ _ hnan] at hrm
    simp only [Except.map] at hrm
    exact ⟨rfl, (Except.ok.injEq _ _ ▸ hrm :).symm⟩

theorem makeGrid_vals_pos (r : ℚ × ℚ × ℚ × ℚ) (f : ℚ → ℚ → Option ℚ) :
    0 < (makeGrid r f).vals.length ∧ ∀ row ∈ (makeGrid r f).vals, 0 < row.length := by
  constructor
  · unfold makeGrid
    simp
  · intro row hrow
    unfold makeGrid at hrow
    simp only [List.mem_map] at hrow
    obtain ⟨i, _, hrow⟩ := hrow
    rw [← hrow]
    simp

theorem run_allNaN_halts (rows : List Row) (p : GeoParams) (f : ℚ → ℚ → Option ℚ)
    (tf : ℚ → ℚ → List (List ℚ) → List (List ℚ)) (hf : ∀ x y, f x y = none) :
    gridFullAllNaN ⟨Except.ok rows, Except.ok p, f, tf⟩ = true
    ∧ (runPipeline ⟨Except.ok rows, Except.ok p, f, tf⟩).2
        = Except.error PipeError.nanGridFound
    ∧ Event.rasterWrite ∉ (runPipeline ⟨Except.ok rows, Except.ok p, f, tf⟩).1 := by
  have h0 : allNoneVals (gridFull rows f).vals = true :=
    makeGrid_allNone (pipelineRegion rows) f hf
  have h1 : allNoneVals (branchGrid (gridFull rows f)).vals = true := by
    rw [branchGrid_eq]
    exact fillna_allNone _ _ h0 (nanmedian_of_allNone _ h0)
  have hpos := makeGrid_vals_pos (pipelineRegion rows) f
  have h2 : hasNaN (branchGrid (gridFull rows f)) = true := by
    apply hasNaN_of_allNone _ h1
    · rw [branchGrid_eq]
      unfold fillna
      simpa using hpos.1
    · intro row hrow
      rw [branchGrid_eq] at hrow
      unfold fillna at hrow
      simp only [List.mem_map] at hrow
      obtain ⟨row0, hrow0, hrow⟩ := hrow
      rw [← hrow]
      simpa using hpos.2 row0 hrow0
  have hred : reducedMasked (tf p.inclination p.declination) (decimatedCoords rows)
      (gridFull rows f) = Except.error PipeError.nanGridFound := by
    unfold reducedMasked
    rw [rtp_error_of_hasNaN _ _ h2]
    rfl
  refine ⟨h0, ?_, ?_⟩
  · show (runPipeline ⟨Except.ok rows, Except.ok p, f, tf⟩).2 = _
    unfold runPipeline
    simp only
    rw [hred]
  · show Event.rasterWrite ∉ (runPipeline ⟨Except.ok rows, Except.ok p, f, tf⟩).1
    unfold runPipeline
    simp only
    rw [hred]
    simp

theorem runPipeline_trace_ok (env : RunEnv) (rows : List Row) (p : GeoParams) (gr : Grid)
    (hcsv : env.csv = Except.ok rows) (hsvc : env.service = Except.ok p)
    (hred : reducedMasked (env.rtpCore p.inclination p.declination)
        (decimatedCoords rows) (gridFull rows env.splineEval) = Except.ok gr) :
    runPipeline env
      = ([Event.csvRead, Event.serviceCall, Event.blockReduced, Event.gridded,
          Event.poleReduced, Event.rasterWrite], Except.ok (outRasterOf rows gr)) := by
  obtain ⟨csv, svc, f, tf⟩ := env
  simp only at hcsv hsvc hred
  subst hcsv
  subst hsvc
  unfold runPipeline
  simp only
  rw [hred]

theorem idxMap_rowLens (q : ℕ → ℕ → Option ℚ → Option ℚ) :
    ∀ (m : List (List (Option ℚ))) (k : ℕ),
      (idxMap (fun i row => idxMap (q i) 0 row) k m).map List.length = m.map List.length := by
  intro m
  induction m with
  | nil => intro k; rfl
  | cons row rest ih =>
    intro k
    simp only [idxMap, List.map_cons, idxMap_length, ih]

theorem dm_rowLens (pts : List (ℚ × ℚ)) (d : ℚ) (g : Grid) :
    (distance_mask pts d g).vals.map List.length = g.vals.map List.length := by
  unfold distance_mask
  exact idxMap_rowLens _ g.vals 0

theorem rowLens_map_range {gen : ℕ → List (Option ℚ)} (n c : ℕ)
    (hg : ∀ i, (gen i).length = c) :
    ((List.range n).map gen).map List.length = List.replicate n c := by
  rw [List.map_map]
  have h : (List.length ∘ gen) = fun _ => c := funext (fun i => hg i)
  rw [h, List.map_const']
  simp

theorem makeGrid_rowLens (r : ℚ × ℚ × ℚ × ℚ) (f : ℚ → ℚ → Option ℚ) :
    (makeGrid r f).vals.map List.length
      = List.replicate ((r.2.2.2 - r.2.2.1).ceil.toNat + 1) ((r.2.1 - r.1).ceil.toNat + 1) := by
  unfold makeGrid
  exact rowLens_map_range _ _ (fun i => by simp)

theorem reducedMasked_rowLens (tf : List (List ℚ) → List (List ℚ)) (pts : List (ℚ × ℚ))
    (g : Grid) (gr : Grid) (htf : ShapePres tf)
    (hrm : reducedMasked tf pts g = Except.ok gr) :
    gr.vals.map List.length = g.vals.map List.length := by
  obtain ⟨hnan, hgr⟩ := reducedMasked_ok tf pts g gr hrm
  rw [hgr, dm_rowLens, rtpOut_shape _ _ htf, branchGrid_eq]
  unfold fillna
  exact map_map_length _ _

/-! ### Concrete inputs used by witnesses and counterexamples -/

/-- A one-sample CSV whose anomaly value is zero. -/
def rowsW : List Row := [⟨0, 0, 48925⟩]

/-- A concrete geomagnetic service response. -/
def geoW : GeoParams := ⟨66, 2, 49000⟩

/-- The same response with a different total intensity only. -/
def geoW2 : GeoParams := ⟨66, 2, 47000⟩

/-- A 1x2 grid with one NaN cell and one defined cell. -/
def gW1 : Grid := ⟨0, 0, [[none, some 4]]⟩

/-- A 1x1 NaN-free grid. -/
def gW2 : Grid := ⟨0, 0, [[some 2]]⟩

/-- A 2x2 grid with a NaN cell inside the distance threshold of the data
point (0, 0). -/
def gCex : Grid := ⟨0, 0, [[some 1, none], [some 2, some 3]]⟩

/-- A single data point at the origin. -/
def ptsCex : List (ℚ × ℚ) := [(0, 0)]

/-- A 1x1 grid whose only cell is far from the data point used with it. -/
def gFar : Grid := ⟨100, 100, [[some 1]]⟩

/-- A NaN-free 1x2 grid near the origin. -/
def gW3 : Grid := ⟨0, 0, [[some 1, some 2]]⟩

/-- A 1x1 grid holding the value 5. -/
def gW5 : Grid := ⟨0, 0, [[some 5]]⟩

/-- A data point far from the origin. -/
def ptsW5far : List (ℚ × ℚ) := [(100, 100)]

/-- Two points in the same 5 m block. -/
def ptsW6 : List P3 := [⟨0, 0, 1⟩, ⟨1, 1, 3⟩]

/-- A 1x1 NaN-free grid for the branch counterexample. -/
def gNoNaN : Grid := ⟨0, 0, [[some 1]]⟩

/-! ### Claims -/

/-- C1: if the interpolated grid contains NaN cells, then in the value handed
to the reduction-to-pole stage every NaN cell carries the grid's (nan)median
while defined cells are unchanged (the branch fills instead of failing), and
if it contains no NaN cells the grid reaches that stage unchanged; the last
conjunct places the branch output immediately before the pole reduction in
the pipeline. -/
theorem claim_C1_nan_fill (g : Grid) :
    (∀ i j, cellOpt g i j = some none → cellOpt (branchGrid g) i j = some (nanmedianGrid g))
    ∧ (∀ i j x, cellOpt g i j = some (some x) → cellOpt (branchGrid g) i j = some (some x))
    ∧ (hasNaN g = false → branchGrid g = g)
    ∧ (∀ rows p f tf, rtpGrid rows p f tf
        = reduction_to_pole (tf p.inclination p.declination) (branchGrid (gridFull rows f))) := by
  refine ⟨?_, ?_, branchGrid_of_not_hasNaN g, fun _ _ _ _ => rfl⟩
  · intro i j h
    rw [branchGrid_eq, cellOpt_fillna, h]
    rfl
  · intro i j x h
    rw [branchGrid_eq, cellOpt_fillna, h]
    rfl

/-- C1 witness: on a grid with a NaN cell at (0,0) and value 4 at (0,1), the
NaN cell of the branch output carries the grid median 4 and the defined cell
is unchanged; a NaN-free grid passes through unchanged. -/
theorem claim_C1_nan_fill_witness :
    cellOpt (branchGrid gW1) 0 0 = some (nanmedianGrid gW1)
    ∧ cellOpt (branchGrid gW1) 0 1 = some (some 4)
    ∧ branchGrid gW2 = gW2 :=
  ⟨(claim_C1_nan_fill gW1).1 0 0 (by with_unfolding_all decide),
   (claim_C1_nan_fill gW1).2.1 0 1 4 (by with_unfolding_all decide),
   (claim_C1_nan_fill gW2).2.2.1 (by with_unfolding_all decide)⟩

/-- C5: in the distance-masked interpolated grid a cell carries a defined
value only if it lies within the 20 m threshold of at least one decimated
input point, and every cell farther than the threshold from all points is
masked; the last conjunct identifies this stage inside the pipeline. -/
theorem claim_C5_mask_threshold (pts : List (ℚ × ℚ)) (g : Grid) (i j : ℕ) :
    (∀ v : ℚ, cellVal (distance_mask pts 20 g) i j = some v →
        ∃ p ∈ pts, (p.1 - (cellCoord g i j).1) ^ 2 + (p.2 - (cellCoord g i j).2) ^ 2 ≤ 20 ^ 2)
    ∧ (withinDist pts 20 (cellCoord g i j) = false →
        cellVal (distance_mask pts 20 g) i j = none)
    ∧ (∀ rows f, gridMasked rows f = distance_mask (decimatedCoords rows) 20 (gridFull rows f)) := by
  refine ⟨?_, ?_, fun _ _ => rfl⟩
  · intro v hv
    rw [cellVal_distance_mask] at hv
    cases hw : withinDist pts 20 (cellCoord g i j) with
    | false => rw [hw] at hv; simp at hv
    | true =>
      unfold withinDist at hw
      rw [List.any_eq_true] at hw
      obtain ⟨p, hp, hd⟩ := hw
      exact ⟨p, hp, of_decide_eq_true hd⟩
  · intro hw
    rw [cellVal_distance_mask, hw]
    rfl

/-- C5 witness: the surviving cell of a masked 1x1 grid is within 20 m of the
data point at the origin, and the same cell is masked when the only data
point is 100 m away. -/
theorem claim_C5_mask_threshold_witness :
    (∃ p ∈ ptsCex, (p.1 - (cellCoord gW5 0 0).1) ^ 2 + (p.2 - (cellCoord gW5 0 0).2) ^ 2 ≤ 20 ^ 2)
    ∧ cellVal (distance_mask ptsW5far 20 gW5) 0 0 = none :=
  ⟨(claim_C5_mask_threshold ptsCex gW5 0 0).1 5 (by with_unfolding_all decide),
   (claim_C5_mask_threshold ptsW5far gW5 0 0).2.1 (by with_unfolding_all decide)⟩

/-- C6: block reduction emits exactly one point per occupied spacing-sized
bin, that point's value is the median of the bin members' values, and the
output never has more points than the input; the last conjunct instantiates
the reducer inside the pipeline at spacing 5. -/
theorem claim_C6_block_reduce (spacing : ℚ) (pts : List P3) (hs : 0 < spacing) :
    (BlockReduce_median spacing pts).length ≤ pts.length
    ∧ (BlockReduce_median spacing pts).length = (occupiedBins spacing pts).length
    ∧ (occupiedBins spacing pts).Nodup
    ∧ (∀ b ∈ occupiedBins spacing pts,
        (⟨median ((binMembers spacing pts b).map P3.x),
          median ((binMembers spacing pts b).map P3.y),
          median ((binMembers spacing pts b).map P3.v)⟩ : P3) ∈ BlockReduce_median spacing pts)
    ∧ (∀ rows, decimated rows = BlockReduce_median 5 (anomalyPoints rows)) := by
  refine ⟨?_, ?_, ?_, ?_, fun _ => rfl⟩
  · unfold BlockReduce_median occupiedBins
    rw [List.length_map]
    calc ((pts.map (binOf spacing (minCoordX pts) (minCoordY pts))).dedup).length
        ≤ (pts.map (binOf spacing (minCoordX pts) (minCoordY pts))).length :=
          (List.dedup_sublist _).length_le
      _ = pts.length := List.length_map _ _
  · unfold BlockReduce_median
    exact List.length_map _ _
  · exact List.nodup_dedup _
  · intro b hb
    exact List.mem_map_of_mem _ hb

/-- C6 witness: two points in one 5 m block reduce to a single output point,
the coordinate-wise and value medians (1/2, 1/2, 2). -/
theorem claim_C6_block_reduce_witness :
    (0 : ℚ) < 5
    ∧ (BlockReduce_median 5 ptsW6).length ≤ ptsW6.length
    ∧ (⟨1/2, 1/2, 2⟩ : P3) ∈ BlockReduce_median 5 ptsW6 := by
  refine ⟨by norm_num, (claim_C6_block_reduce 5 ptsW6 (by norm_num)).1, ?_⟩
  have h := (claim_C6_block_reduce 5 ptsW6 (by norm_num)).2.2.2.1 (0, 0)
    (by with_unfolding_all decide)
  have he : (⟨median ((binMembers 5 ptsW6 (0, 0)).map P3.x),
      median ((binMembers 5 ptsW6 (0, 0)).map P3.y),
      median ((binMembers 5 ptsW6 (0, 0)).map P3.v)⟩ : P3) = ⟨1/2, 1/2, 2⟩ := by
    with_unfolding_all decide
  exact he ▸ h

/-- C8: block reduction is deterministic in its inputs (equal point sets and
spacing give equal outputs, coordinates and values alike), and the median of
an even-count list is the average of the two middle sorted values. -/
theorem claim_C8_deterministic (spacing : ℚ) (pts qs : List P3) (h : pts = qs) :
    BlockReduce_median spacing pts = BlockReduce_median spacing qs
    ∧ ∀ l : List ℚ, l ≠ [] → l.length % 2 = 0 →
        median l = ((sortQ l).getD (l.length / 2 - 1) 0 + (sortQ l).getD (l.length / 2) 0) / 2 := by
  refine ⟨by rw [h], ?_⟩
  intro l hne heven
  unfold median
  rw [if_neg (by omega)]

/-- C8 witness: re-running the reducer on the same two points gives the same
output, and the median of the even-count list [1, 3] is the average of its
two middle values. -/
theorem claim_C8_deterministic_witness :
    BlockReduce_median 5 ptsW6 = BlockReduce_median 5 ptsW6
    ∧ median [1, 3]
        = ((sortQ [1, 3]).getD (([1, 3] : List ℚ).length / 2 - 1) 0
            + (sortQ [1, 3]).getD (([1, 3] : List ℚ).length / 2) 0) / 2 :=
  ⟨(claim_C8_deterministic 5 ptsW6 ptsW6 rfl).1,
   (claim_C8_deterministic 5 ptsW6 ptsW6 rfl).2 [1, 3] (by simp) rfl⟩

/-- C9: two runs that differ only in the fetched total intensity produce
identical rasters (data, shape and transform), because the anomaly baseline
subtracted at line 98 is the constant 48925 and the total intensity is never
used past the print at line 86. -/
theorem claim_C9_totalIntensity_immaterial (rows : List Row) (f : ℚ → ℚ → Option ℚ)
    (tf : ℚ → ℚ → List (List ℚ) → List (List ℚ)) (p q : GeoParams)
    (hi : p.inclination = q.inclination) (hd : p.declination = q.declination) :
    runPipeline ⟨Except.ok rows, Except.ok p, f, tf⟩
        = runPipeline ⟨Except.ok rows, Except.ok q, f, tf⟩
    ∧ rtpGrid rows p f tf = rtpGrid rows q f tf
    ∧ anomalyPoints rows = rows.map (fun r => ⟨r.x, r.y, r.b - 48925⟩) := by
  obtain ⟨pi, pd, pt⟩ := p
  obtain ⟨qi, qd, qt⟩ := q
  simp only at hi hd
  subst hi
  subst hd
  exact ⟨rfl, rfl, rfl⟩

/-- C9 witness: with total intensities 49000 and 47000 and the same angles,
the written rasters coincide. -/
theorem claim_C9_totalIntensity_immaterial_witness :
    runPipeline ⟨Except.ok rowsW, Except.ok geoW, fun _ _ => some 0, fun _ _ m => m⟩
        = runPipeline ⟨Except.ok rowsW, Except.ok geoW2, fun _ _ => some 0, fun _ _ m => m⟩
    ∧ rtpGrid rowsW geoW (fun _ _ => some 0) (fun _ _ m => m)
        = rtpGrid rowsW geoW2 (fun _ _ => some 0) (fun _ _ m => m)
    ∧ anomalyPoints rowsW = rowsW.map (fun r => ⟨r.x, r.y, r.b - 48925⟩) :=
  claim_C9_totalIntensity_immaterial rowsW (fun _ _ => some 0) (fun _ _ m => m) geoW geoW2 rfl rfl

/-- C10 counterexample: on a NaN-free grid the value bound for the
pole-reduction stage is still not the dataset copy the claim predicts,
because the condition at line 152 is the truthiness of a non-empty xarray
Dataset, which is always true. -/
theorem claim_C10_counterexample :
    hasNaN gNoNaN = false
    ∧ nanBranch gNoNaN ≠ RtpInput.dataset (mkDataset gNoNaN) := by
  with_unfolding_all decide

/-- C10 (amended): the branch condition is always truthy, so the value passed
to reduction-to-pole is always the single anomaly data array with NaNs
filled; the dataset-copy arm (whose value has a different shape, as the claim
observes) is dead code. -/
theorem claim_C10_branch_shapes (g : Grid) :
    nanBranch g = RtpInput.dataArray (fillna g (nanmedianGrid g))
    ∧ RtpInput.dataArray (fillna g (nanmedianGrid g)) ≠ RtpInput.dataset (mkDataset g)
    ∧ branchGrid g = fillna g (nanmedianGrid g) := by
  refine ⟨nanBranch_eq g, ?_, branchGrid_eq g⟩
  intro h
  exact RtpInput.noConfusion h

/-- C2: any failure among file-not-found, network failure and malformed CSV
propagates as an uncaught failure that halts the run before the output raster
is produced, and an all-NaN interpolated grid is likewise a halting failure
rather than being silently processed: the median fill leaves it all-NaN
(nanmedian of an all-NaN grid is NaN) and the pole reduction then raises its
uncaught ValueError before any raster write. -/
theorem claim_C2_failure_propagation (rows : List Row) (p : GeoParams)
    (f : ℚ → ℚ → Option ℚ) (tf : ℚ → ℚ → List (List ℚ) → List (List ℚ))
    (e1 e2 : PipeError) :
    (runPipeline ⟨Except.error e1, Except.ok p, f, tf⟩).2 = Except.error e1
    ∧ Event.rasterWrite ∉ (runPipeline ⟨Except.error e1, Except.ok p, f, tf⟩).1
    ∧ (runPipeline ⟨Except.ok rows, Except.error e2, f, tf⟩).2 = Except.error e2
    ∧ Event.rasterWrite ∉ (runPipeline ⟨Except.ok rows, Except.error e2, f, tf⟩).1
    ∧ ((∀ x y, f x y = none) →
        gridFullAllNaN ⟨Except.ok rows, Except.ok p, f, tf⟩ = true
        ∧ (runPipeline ⟨Except.ok rows, Except.ok p, f, tf⟩).2
            = Except.error PipeError.nanGridFound
        ∧ Event.rasterWrite ∉ (runPipeline ⟨Except.ok rows, Except.ok p, f, tf⟩).1) := by
  refine ⟨rfl, by simp [runPipeline], rfl, by simp [runPipeline], ?_⟩
  intro hf
  exact run_allNaN_halts rows p f tf hf

/-- C2 witness: a missing file and a failed service call each halt the run
without a raster write, and a run whose interpolated grid is entirely NaN
halts with the pole reduction's ValueError, again without a raster write. -/
theorem claim_C2_failure_propagation_witness :
    (runPipeline ⟨Except.error PipeError.fileNotFound, Except.ok geoW,
        fun _ _ => none, fun _ _ m => m⟩).2 = Except.error PipeError.fileNotFound
    ∧ Event.rasterWrite ∉ (runPipeline ⟨Except.error PipeError.fileNotFound, Except.ok geoW,
        fun _ _ => none, fun _ _ m => m⟩).1
    ∧ (runPipeline ⟨Except.ok rowsW, Except.error PipeError.networkFailure,
        fun _ _ => none, fun _ _ m => m⟩).2 = Except.error PipeError.networkFailure
    ∧ Event.rasterWrite ∉ (runPipeline ⟨Except.ok rowsW, Except.error PipeError.networkFailure,
        fun _ _ => none, fun _ _ m => m⟩).1
    ∧ (gridFullAllNaN ⟨Except.ok rowsW, Except.ok geoW, fun _ _ => none, fun _ _ m => m⟩ = true
        ∧ (runPipeline ⟨Except.ok rowsW, Except.ok geoW, fun _ _ => none, fun _ _ m => m⟩).2
            = Except.error PipeError.nanGridFound
        ∧ Event.rasterWrite ∉ (runPipeline ⟨Except.ok rowsW, Except.ok geoW,
            fun _ _ => none, fun _ _ m => m⟩).1) :=
  have h := claim_C2_failure_propagation rowsW geoW (fun _ _ => none) (fun _ _ m => m)
    PipeError.fileNotFound PipeError.networkFailure
  ⟨h.1, h.2.1, h.2.2.1, h.2.2.2.1, h.2.2.2.2 (fun _ _ => rfl)⟩

/-- C3 counterexample: a NaN cell lying within the distance threshold is
masked (NaN) in the interpolated grid but defined (value 2, the filled
median, transformed by the identity filter) in the re-masked reduced grid of
the same run; so the two grids' invalid cells do not coincide
cell-for-cell. -/
theorem claim_C3_counterexample :
    (reducedMasked (fun m => m) ptsCex gCex).toOption.map (fun gr => cellVal gr 0 1)
        = some (some 2)
    ∧ cellVal (interpMasked ptsCex gCex) 0 1 = none := by
  with_unfolding_all decide

/-- C3 (amended): the reduced grid is re-masked by exactly the same distance
criterion (same decimated coordinates, same 20 m threshold), so every cell
beyond the threshold is masked in both grids, and on a NaN-free interpolated
grid the two masks agree on every cell; a within-threshold NaN cell, however,
is masked only in the interpolated grid (it is median-filled before pole
reduction).  The last two conjuncts identify the stages in the pipeline. -/
theorem claim_C3_same_criterion (tf : List (List ℚ) → List (List ℚ)) (pts : List (ℚ × ℚ))
    (g : Grid) (htf : ShapePres tf) :
    (∀ gr, reducedMasked tf pts g = Except.ok gr →
        ∀ i j, withinDist pts 20 (cellCoord g i j) = false →
          cellVal (interpMasked pts g) i j = none ∧ cellVal gr i j = none)
    ∧ (hasNaN g = false → ∀ gr, reducedMasked tf pts g = Except.ok gr →
        ∀ i j, (cellVal gr i j = none ↔ cellVal (interpMasked pts g) i j = none))
    ∧ (∀ rows f2, gridMasked rows f2 = interpMasked (decimatedCoords rows) (gridFull rows f2))
    ∧ (∀ rows p f2 tfc,
        reducedMasked (tfc p.inclination p.declination) (decimatedCoords rows) (gridFull rows f2)
          = (rtpGrid rows p f2 tfc).map (distance_mask (decimatedCoords rows) 20)) := by
  have hcoord : ∀ i j,
      cellCoord (rtpOut tf (branchGrid g)) i j = cellCoord g i j := by
    intro i j
    apply cellCoord_of_eq
    · rw [rtpOut_west, branchGrid_west]
    · rw [rtpOut_south, branchGrid_south]
  refine ⟨?_, ?_, fun _ _ => rfl, fun _ _ _ _ => rfl⟩
  · intro gr hrm i j hw
    obtain ⟨hnan, hgr⟩ := reducedMasked_ok tf pts g gr hrm
    constructor
    · unfold interpMasked
      rw [cellVal_distance_mask, hw]
      rfl
    · rw [hgr, cellVal_distance_mask, hcoord, hw]
      rfl
  · intro hnan gr hrm i j
    obtain ⟨_, hgr⟩ := reducedMasked_ok tf pts g gr hrm
    rw [hgr]
    unfold interpMasked
    rw [masked_none_iff, masked_none_iff, hcoord]
    rw [branchGrid_of_not_hasNaN g hnan]
    rw [rtpOut_cellVal_none_iff tf g htf hnan]

/-- C3 witness: a far cell is masked in both the interpolated and the
successfully reduced grid, and on a NaN-free grid the reduced and
interpolated masks agree at a sample cell. -/
theorem claim_C3_same_criterion_witness :
    (cellVal (interpMasked ptsCex gFar) 0 0 = none
      ∧ cellVal (⟨100, 100, [[none]]⟩ : Grid) 0 0 = none)
    ∧ (cellVal (⟨0, 0, [[some 1, some 2]]⟩ : Grid) 0 1 = none
        ↔ cellVal (interpMasked ptsCex gW3) 0 1 = none) :=
  ⟨(claim_C3_same_criterion (fun m => m) ptsCex gFar (fun m => rfl)).1
      (⟨100, 100, [[none]]⟩ : Grid) (by with_unfolding_all rfl) 0 0
      (by with_unfolding_all decide),
   (claim_C3_same_criterion (fun m => m) ptsCex gW3 (fun m => rfl)).2.1
      (by with_unfolding_all decide) (⟨0, 0, [[some 1, some 2]]⟩ : Grid)
      (by with_unfolding_all rfl) 0 1⟩

/-- C7: in every run the service call precedes the raster write, and when the
service call fails, no raster write happens and no raster is produced. -/
theorem claim_C7_service_before_write (env : RunEnv) (e : PipeError) :
    (Event.rasterWrite ∈ (runPipeline env).1 →
        Event.serviceCall ∈ (runPipeline env).1
        ∧ (runPipeline env).1.indexOf Event.serviceCall
            < (runPipeline env).1.indexOf Event.rasterWrite)
    ∧ (env.service = Except.error e →
        Event.rasterWrite ∉ (runPipeline env).1
        ∧ ∀ r : Raster, (runPipeline env).2 ≠ Except.ok r) := by
  obtain ⟨csv, svc, f, tf⟩ := env
  cases csv with
  | error e1 =>
    refine ⟨?_, ?_⟩
    · intro h
      simp [runPipeline] at h
    · intro _
      refine ⟨by simp [runPipeline], ?_⟩
      intro r h
      simp [runPipeline] at h
  | ok rows =>
    cases svc with
    | error e2 =>
      refine ⟨?_, ?_⟩
      · intro h
        simp [runPipeline] at h
      · intro _
        refine ⟨by simp [runPipeline], ?_⟩
        intro r h
        simp [runPipeline] at h
    | ok p =>
      cases hred : reducedMasked (tf p.inclination p.declination)
          (decimatedCoords rows) (gridFull rows f) with
      | error e3 =>
        refine ⟨?_, ?_⟩
        · intro h
          simp [runPipeline, hred] at h
        · intro h
          exact Except.noConfusion h
      | ok gr =>
        refine ⟨?_, ?_⟩
        · intro _
          refine ⟨by simp [runPipeline, hred], ?_⟩
          simp [runPipeline, hred]
        · intro h
          exact Except.noConfusion h

/-- A complete run used by the C7 witness. -/
def envOkW : RunEnv :=
  ⟨Except.ok rowsW, Except.ok geoW, fun _ _ => some 0, fun _ _ m => m⟩

/-- A run whose service call fails, used by the C7 witness. -/
def envSvcErrW : RunEnv :=
  ⟨Except.ok rowsW, Except.error PipeError.networkFailure, fun _ _ => some 0, fun _ _ m => m⟩

/-- C7 witness: in a completed run the service call appears strictly before
the raster write, and in a run with a failed service call no raster write
occurs and no raster is produced. -/
theorem claim_C7_service_before_write_witness :
    (Event.serviceCall ∈ (runPipeline envOkW).1
      ∧ (runPipeline envOkW).1.indexOf Event.serviceCall
          < (runPipeline envOkW).1.indexOf Event.rasterWrite)
    ∧ (Event.rasterWrite ∉ (runPipeline envSvcErrW).1
        ∧ ∀ r : Raster, (runPipeline envSvcErrW).2 ≠ Except.ok r) :=
  have h0 : hasNaN (gridFull rowsW envOkW.splineEval) = false :=
    hasNaN_makeGrid_of_total (pipelineRegion rowsW) envOkW.splineEval
      (fun x y h => Option.noConfusion h)
  have hred : reducedMasked (envOkW.rtpCore geoW.inclination geoW.declination)
      (decimatedCoords rowsW) (gridFull rowsW envOkW.splineEval)
      = Except.ok (distance_mask (decimatedCoords rowsW) 20
          (rtpOut (envOkW.rtpCore geoW.inclination geoW.declination)
            (gridFull rowsW envOkW.splineEval))) := by
    unfold reducedMasked
    rw [branchGrid_of_not_hasNaN _ h0, rtp_ok_of_not_hasNaN _ _ h0]
    rfl
  have htr := runPipeline_trace_ok envOkW rowsW geoW _ rfl rfl hred
  ⟨(claim_C7_service_before_write envOkW PipeError.networkFailure).1
      (by rw [htr]; decide),
   (claim_C7_service_before_write envSvcErrW PipeError.networkFailure).2 rfl⟩

/-- The re-masked reduced grid of the NaN-free run used by the C4 witness. -/
def grW : Grid :=
  distance_mask (decimatedCoords rowsW) 20
    (rtpOut (fun m => m) (gridFull rowsW (fun _ _ => some 0)))

/-- C4: the declared height and width of the written raster are the row and
column counts of the flipped 2-D array it stores, and its affine transform,
built from the padded region bounds and the array shape, maps pixel (0, 0) to
the padded region's west and north edges. -/
theorem claim_C4_raster_geometry (rows : List Row) (f : ℚ → ℚ → Option ℚ)
    (tf : List (List ℚ) → List (List ℚ)) (gr : Grid) (htf : ShapePres tf)
    (hrm : reducedMasked tf (decimatedCoords rows) (gridFull rows f) = Except.ok gr) :
    (outRasterOf rows gr).height = (outRasterOf rows gr).data.length
    ∧ (∀ row ∈ (outRasterOf rows gr).data, row.length = (outRasterOf rows gr).width)
    ∧ applyAffine (outRasterOf rows gr).transform 0 0
        = ((pipelineRegion rows).1, (pipelineRegion rows).2.2.2) := by
  have hlens : gr.vals.map List.length
      = List.replicate (((pipelineRegion rows).2.2.2 - (pipelineRegion rows).2.2.1).ceil.toNat + 1)
          (((pipelineRegion rows).2.1 - (pipelineRegion rows).1).ceil.toNat + 1) := by
    rw [reducedMasked_rowLens tf _ _ gr htf hrm]
    exact makeGrid_rowLens (pipelineRegion rows) f
  have hrowlen : ∀ row ∈ gr.vals,
      row.length = ((pipelineRegion rows).2.1 - (pipelineRegion rows).1).ceil.toNat + 1 := by
    intro row hrow
    have hmem : row.length ∈ gr.vals.map List.length :=
      List.mem_map_of_mem List.length hrow
    rw [hlens] at hmem
    exact List.eq_of_mem_replicate hmem
  have hlenpos : 0 < gr.vals.length := by
    have := congrArg List.length hlens
    simp only [List.length_map, List.length_replicate] at this
    omega
  refine ⟨rfl, ?_, ?_⟩
  · intro row hrow
    show row.length = ((flipud gr.vals).headD []).length
    have hd : (flipud gr.vals).headD [] ∈ gr.vals := by
      unfold flipud
      have hne : gr.vals.reverse ≠ [] := by
        intro hnil
        have h0 := congrArg List.length hnil
        simp only [List.length_reverse, List.length_nil] at h0
        omega
      rw [← List.mem_reverse, List.headD_eq_head?_getD, List.head?_eq_head hne,
        Option.getD_some]
      exact List.head_mem hne
    have hrow2 : row ∈ gr.vals := by
      have : row ∈ gr.vals.reverse := hrow
      rwa [List.mem_reverse] at this
    rw [hrowlen row hrow2, hrowlen _ hd]
  · show applyAffine (from_bounds (pipelineRegion rows).1 (pipelineRegion rows).2.2.1
        (pipelineRegion rows).2.1 (pipelineRegion rows).2.2.2 _ _) 0 0 = _
    unfold applyAffine from_bounds
    simp

/-- C4 witness: the raster of a concrete completed run has height equal to
its row count, every data row as wide as the declared width, and a transform
sending pixel (0, 0) to the padded region's north-west corner. -/
theorem claim_C4_raster_geometry_witness :
    (outRasterOf rowsW grW).height = (outRasterOf rowsW grW).data.length
    ∧ (∀ row ∈ (outRasterOf rowsW grW).data, row.length = (outRasterOf rowsW grW).width)
    ∧ applyAffine (outRasterOf rowsW grW).transform 0 0
        = ((pipelineRegion rowsW).1, (pipelineRegion rowsW).2.2.2) :=
  have h0 : hasNaN (gridFull rowsW (fun _ _ => some 0)) = false :=
    hasNaN_makeGrid_of_total (pipelineRegion rowsW) (fun _ _ => some 0)
      (fun x y h => Option.noConfusion h)
  claim_C4_raster_geometry rowsW (fun _ _ => some 0) (fun m => m) grW (fun m => rfl)
    (by unfold reducedMasked
        rw [branchGrid_of_not_hasNaN _ h0, rtp_ok_of_not_hasNaN _ _ h0]
        rfl)
